import Mathlib

/-!
Verification development for the SPRAYai repository.

The chart script `deployments/control/app/static/js/generate_charts.js`
is embedded directly from its source.  The edge vision-to-actuation
pipeline components (FrameBuffer, InferenceClient, CoordinateMapper,
ActuatorChannel) are described by the specification but their code is
not part of the available sources, so they are modelled from the
specification text; each such definition carries a doc comment saying
so.
-/

namespace GenerateCharts

/-- The `weekday` array of `generate_charts.js`:
`weekday = ["SUN","MON","TUE","WED","THU","FRI","SAT"]`. -/
def weekday : List String :=
  ["SUN", "MON", "TUE", "WED", "THU", "FRI", "SAT"]

/-- The index expression `(today + i - 5 + 7) % 7` of the loop body
`days[i] = weekday[(today + i - 5 + 7) % 7]`, computed over the
integers as JavaScript does (for a non-negative dividend, JavaScript
`%` agrees with mathematical remainder). -/
def dayIndex (today i : Int) : Int :=
  (today + i - 5 + 7) % 7

/-- JavaScript array indexing: `a[idx]` yields the element when `idx`
is an in-bounds integer and `undefined` (here `none`) otherwise. -/
def jsLookup (a : List String) (idx : Int) : Option String :=
  if 0 ≤ idx ∧ idx < a.length then a.get? idx.toNat else none

/-- The `days` array built by the loop
`for (var i = 0; i < 6; i++) { days[i] = weekday[(today + i - 5 + 7) % 7] }`. -/
def days (today : Nat) : List (Option String) :=
  (List.range 6).map (fun i => jsLookup weekday (dayIndex today i))

end GenerateCharts

/-- C10: for every `today` in `{0,...,6}` and loop index `i` in
`{0,...,5}`, the expression `(today + i - 5 + 7) % 7` lies in
`{0,...,6}`, so the lookup into the 7-element `weekday` array is in
bounds and yields a defined label. -/
theorem c10_dayIndex_in_bounds (today i : Nat)
    (htoday : today < 7) (hi : i < 6) :
    0 ≤ GenerateCharts.dayIndex today i ∧
      GenerateCharts.dayIndex today i < 7 ∧
      (GenerateCharts.jsLookup GenerateCharts.weekday
        (GenerateCharts.dayIndex today i)).isSome := by
  interval_cases today <;> interval_cases i <;> decide

/-- Witness for C10 at `today = 3`, `i = 2`. -/
theorem c10_dayIndex_in_bounds_witness :
    0 ≤ GenerateCharts.dayIndex 3 2 ∧
      GenerateCharts.dayIndex 3 2 < 7 ∧
      (GenerateCharts.jsLookup GenerateCharts.weekday
        (GenerateCharts.dayIndex 3 2)).isSome :=
  c10_dayIndex_in_bounds 3 2 (by decide) (by decide)

/-- C9: for every weekday value `today` in `{0,...,6}`, the `days`
array has six labels, `days[i] = weekday[(today + i - 5 + 7) % 7]`,
the labels are consecutive weekdays (each index is the successor
mod 7 of the previous), and `days[5]` is today's abbreviation. -/
theorem c9_days_labels (today : Nat) (htoday : today < 7) :
    (GenerateCharts.days today).length = 6 ∧
      (∀ i, i < 6 →
        (GenerateCharts.days today).getD i none =
          GenerateCharts.jsLookup GenerateCharts.weekday
            (GenerateCharts.dayIndex today i)) ∧
      (∀ i : ℕ, i < 5 →
        GenerateCharts.dayIndex today (i + 1) =
          (GenerateCharts.dayIndex today i + 1) % 7) ∧
      (GenerateCharts.days today).getD 5 none =
        (GenerateCharts.weekday.get? today) := by
  interval_cases today <;>
    refine ⟨by decide, fun i hi => ?_, fun i hi => ?_, by decide⟩ <;>
    interval_cases i <;> decide

/-- Witness for C9 at `today = 4` (Thursday). -/
theorem c9_days_labels_witness :
    (GenerateCharts.days 4).length = 6 ∧
      (∀ i, i < 6 →
        (GenerateCharts.days 4).getD i none =
          GenerateCharts.jsLookup GenerateCharts.weekday
            (GenerateCharts.dayIndex 4 i)) ∧
      (∀ i : ℕ, i < 5 →
        GenerateCharts.dayIndex 4 (i + 1) =
          (GenerateCharts.dayIndex 4 i + 1) % 7) ∧
      (GenerateCharts.days 4).getD 5 none =
        (GenerateCharts.weekday.get? 4) :=
  c9_days_labels 4 (by decide)

namespace Pipeline

/-- Modelled from the spec: the `Frame` record of §3 (the repository's
pipeline sources are not available; only `id` and `capture_time` are
relevant to the buffer claims, `image` and `position` are opaque). -/
structure Frame where
  id : Nat
  capture_time : Nat
deriving DecidableEq

/-- Modelled from the spec: the bounded, timestamped, staleness-aware
`FrameBuffer` of §2/§4.1 (pipeline sources unavailable).  Frames are
kept oldest first. -/
structure FrameBuffer where
  capacity : Nat
  staleness : Nat
  frames : List Frame
deriving DecidableEq

/-- Age of a frame at time `now` (truncated subtraction: a frame
captured in the future has age 0). -/
def Frame.age (f : Frame) (now : Nat) : Nat :=
  now - f.capture_time

/-- Modelled from the spec: `push(frame)` inserts a frame, evicting the
oldest frame if capacity is exceeded (§4.1). -/
def FrameBuffer.push (b : FrameBuffer) (f : Frame) : FrameBuffer :=
  let fs := b.frames ++ [f]
  { b with frames := if b.capacity < fs.length then fs.tail else fs }

/-- A whole sequence of pushes. -/
def FrameBuffer.pushAll (b : FrameBuffer) (fs : List Frame) : FrameBuffer :=
  fs.foldl FrameBuffer.push b

/-- Modelled from the spec: `pop_ready()` returns the oldest frame not
yet dispatched, or nothing if empty; frames whose age exceeds the
staleness threshold are dropped proactively, before anything is handed
downstream (§4.1, §8). -/
def FrameBuffer.pop_ready (b : FrameBuffer) (now : Nat) :
    Option Frame × FrameBuffer :=
  match b.frames.filter (fun f => decide (f.age now ≤ b.staleness)) with
  | [] => (none, { b with frames := [] })
  | f :: rest => (some f, { b with frames := rest })

theorem FrameBuffer.push_capacity (b : FrameBuffer) (f : Frame) :
    (b.push f).capacity = b.capacity := rfl

theorem FrameBuffer.push_length_le (b : FrameBuffer) (f : Frame)
    (h : b.frames.length ≤ b.capacity) :
    (b.push f).frames.length ≤ b.capacity := by
  unfold FrameBuffer.push
  dsimp only
  split
  · simpa using h
  · next hlt => simpa using Nat.le_of_not_lt hlt

theorem FrameBuffer.pushAll_capacity (b : FrameBuffer) (fs : List Frame) :
    (b.pushAll fs).capacity = b.capacity := by
  induction fs generalizing b with
  | nil => rfl
  | cons f fs ih => simpa [FrameBuffer.pushAll] using ih (b.push f)

theorem FrameBuffer.pushAll_length_le (b : FrameBuffer) (fs : List Frame)
    (h : b.frames.length ≤ b.capacity) :
    (b.pushAll fs).frames.length ≤ b.capacity := by
  induction fs generalizing b with
  | nil => simpa [FrameBuffer.pushAll] using h
  | cons f fs ih =>
      have h1 := FrameBuffer.push_length_le b f h
      have := ih (b.push f) (by simpa [FrameBuffer.push_capacity] using h1)
      simpa [FrameBuffer.pushAll, FrameBuffer.push_capacity] using this

end Pipeline

/-- C2: starting from any buffer within capacity, after each push of
any sequence of pushes (every prefix of the sequence) the number of
frames held is at most `capacity`. -/
theorem c2_framebuffer_capacity (b : Pipeline.FrameBuffer)
    (fs : List Pipeline.Frame) (h : b.frames.length ≤ b.capacity)
    (t : Nat) :
    (b.pushAll (fs.take t)).frames.length ≤ b.capacity :=
  Pipeline.FrameBuffer.pushAll_length_le b (fs.take t) h

/-- Witness for C2: capacity 2, four pushes, checked after the third. -/
theorem c2_framebuffer_capacity_witness :
    ((Pipeline.FrameBuffer.mk 2 10 []).pushAll
        (([⟨0, 0⟩, ⟨1, 1⟩, ⟨2, 2⟩, ⟨3, 3⟩] :
          List Pipeline.Frame).take 3)).frames.length ≤ 2 :=
  c2_framebuffer_capacity (Pipeline.FrameBuffer.mk 2 10 [])
    [⟨0, 0⟩, ⟨1, 1⟩, ⟨2, 2⟩, ⟨3, 3⟩] (by decide) 3

/-- C8: a frame in the buffer whose age exceeds the staleness
threshold when `pop_ready` is called is never returned downstream and
is evicted from the buffer. -/
theorem c8_stale_frame_never_returned (b : Pipeline.FrameBuffer)
    (now : Nat) (f : Pipeline.Frame) (_hmem : f ∈ b.frames)
    (hstale : b.staleness < f.age now) :
    (b.pop_ready now).1 ≠ some f ∧
      f ∉ (b.pop_ready now).2.frames := by
  have hpred : (decide (f.age now ≤ b.staleness)) = false :=
    decide_eq_false (Nat.not_le.mpr hstale)
  have hfresh : f ∉ b.frames.filter
      (fun g => decide (g.age now ≤ b.staleness)) := by
    intro hmemf
    have := (List.mem_filter.mp hmemf).2
    rw [hpred] at this
    exact Bool.noConfusion this
  unfold Pipeline.FrameBuffer.pop_ready
  cases hcase : b.frames.filter (fun g => decide (g.age now ≤ b.staleness)) with
  | nil =>
      refine ⟨by simp, by simp⟩
  | cons g rest =>
      rw [hcase] at hfresh
      constructor
      · simp only [ne_eq, Option.some.injEq]
        intro hgf
        exact hfresh (by simp [hgf])
      · intro hmemrest
        exact hfresh (List.mem_cons_of_mem g (by simpa using hmemrest))

/-- Witness for C8: a buffer holding a stale frame (age 30 > threshold
5) and a fresh one; the stale frame is neither returned nor retained. -/
theorem c8_stale_frame_never_returned_witness :
    ((Pipeline.FrameBuffer.mk 2 5 [⟨0, 0⟩, ⟨1, 28⟩]).pop_ready 30).1 ≠
        some (⟨0, 0⟩ : Pipeline.Frame) ∧
      (⟨0, 0⟩ : Pipeline.Frame) ∉
        ((Pipeline.FrameBuffer.mk 2 5 [⟨0, 0⟩, ⟨1, 28⟩]).pop_ready
          30).2.frames :=
  c8_stale_frame_never_returned (Pipeline.FrameBuffer.mk 2 5 [⟨0, 0⟩, ⟨1, 28⟩])
    30 ⟨0, 0⟩ (by decide) (by decide)

namespace Pipeline

/-- Modelled from the spec: the vehicle/camera geometry consumed by
`CoordinateMapper.map` — camera field of view, mounting offset,
vehicle velocity, nozzle pitch (§4.3, §6; pipeline sources
unavailable).  Distances and times are integers. -/
structure Geometry where
  image_height : Int
  fov_length : Int
  mount_offset : Int
  velocity : Int
  nozzle_pitch : Int
deriving DecidableEq

/-- Modelled from the spec: a detection with its frame's capture time
and a bounding box in image coordinates (§3, §4.3). -/
structure Detection where
  capture_time : Int
  box_x : Int
  box_y : Int
  box_h : Int
deriving DecidableEq

/-- Modelled from the spec: the `ActuationWindow` record of §3. -/
structure ActuationWindow where
  nozzle_id : Int
  open_at : Int
  close_at : Int
deriving DecidableEq

namespace CoordinateMapper

/-- Modelled from the spec: projection of a bounding box to the time
interval during which the target passes beneath the matched nozzle
(§4.3): image rows are scaled by the field of view, shifted by the
mounting offset, and divided by the vehicle velocity to obtain times
relative to `capture_time`. -/
def computeWindow (d : Detection) (g : Geometry) : ActuationWindow :=
  let dist_open := g.mount_offset - (d.box_y + d.box_h) * g.fov_length / g.image_height
  let dist_close := g.mount_offset - d.box_y * g.fov_length / g.image_height
  { nozzle_id := d.box_x / g.nozzle_pitch
    open_at := d.capture_time + dist_open / g.velocity
    close_at := d.capture_time + dist_close / g.velocity }

/-- Modelled from the spec: the pure function
`map(detection, geometry, now) -> ActuationWindow | None` (§4.3);
returns `none` when the projected window already lies in the past
(`close_at ≤ now`), and on degenerate geometry. -/
def map (d : Detection) (g : Geometry) (now : Int) : Option ActuationWindow :=
  if g.velocity ≤ 0 ∨ g.image_height ≤ 0 ∨ g.nozzle_pitch ≤ 0 then none
  else
    let w := computeWindow d g
    if w.close_at ≤ now then none else some w

end CoordinateMapper

end Pipeline

/-- C3: when the computed actuation window has `close_at ≤ now`, `map`
returns `none`; and `map` never returns a window lying in the past:
any returned window has `now < close_at`. -/
theorem c3_mapper_no_past_window (d : Pipeline.Detection)
    (g : Pipeline.Geometry) (now : Int) :
    ((Pipeline.CoordinateMapper.computeWindow d g).close_at ≤ now →
        Pipeline.CoordinateMapper.map d g now = none) ∧
      (∀ w, Pipeline.CoordinateMapper.map d g now = some w →
        now < w.close_at) := by
  constructor
  · intro hpast
    unfold Pipeline.CoordinateMapper.map
    split
    · rfl
    · simp [hpast]
  · intro w hw
    unfold Pipeline.CoordinateMapper.map at hw
    split at hw
    · exact absurd hw (by simp)
    · by_cases hc :
        (Pipeline.CoordinateMapper.computeWindow d g).close_at ≤ now
      · simp [hc] at hw
      · simp [hc] at hw
        rw [← hw]
        exact Int.not_le.mp hc

/-- Witness for C3: a box projected to `[35, 40]`; at `now = 40` the
window is past so `map` returns `none`, and at `now = 10` the window
returned satisfies `now < close_at`. -/
theorem c3_mapper_no_past_window_witness :
    (Pipeline.CoordinateMapper.map ⟨0, 25, 10, 5⟩
        ⟨100, 100, 50, 1, 10⟩ 40 = none) ∧
      (10 : Int) <
        (Pipeline.ActuationWindow.mk 2 35 40).close_at :=
  ⟨(c3_mapper_no_past_window ⟨0, 25, 10, 5⟩ ⟨100, 100, 50, 1, 10⟩ 40).1
      (by decide),
    (c3_mapper_no_past_window ⟨0, 25, 10, 5⟩ ⟨100, 100, 50, 1, 10⟩ 10).2
      (Pipeline.ActuationWindow.mk 2 35 40) (by decide)⟩

namespace Pipeline

/-- Modelled from the spec: the result of `submit(frame)` (§4.2, §7;
InferenceClient sources unavailable). -/
inductive SubmitResult
  | Accepted
  | Overloaded
  | ServiceUnavailable
deriving DecidableEq

/-- Modelled from the spec: the `InferenceRequest` record of §3:
`{frame_id, image, deadline}` (image opaque, omitted). -/
structure InferenceRequest where
  frame_id : Nat
  deadline : Nat
deriving DecidableEq

/-- Modelled from the spec: the circuit-breaker state of §4.2 —
closed, open until a time with a current cooldown, or half-open with
one probe request outstanding. -/
inductive CircuitState
  | Closed
  | Open (openedUntil : Nat) (cooldown : Nat)
  | HalfOpen (probe_id : Nat) (cooldown : Nat)
deriving DecidableEq

/-- Modelled from the spec: the `InferenceClient` of §4.2 — in-flight
request table, consecutive-failure counter and circuit-breaker state
(sources unavailable). -/
structure InferenceClient where
  max_in_flight : Nat
  max_latency : Nat
  threshold : Nat
  cooldown_base : Nat
  cooldown_cap : Nat
  inflight : List InferenceRequest
  consecutive_failures : Nat
  circuit : CircuitState
deriving DecidableEq

/-- Modelled from the spec: `submit(frame)` (§4.2): fails immediately
with `Overloaded` when `max_in_flight` is reached; fails fast with
`ServiceUnavailable` while the circuit is open and the cooldown has
not elapsed (no request is issued); once the cooldown elapses exactly
one half-open probe is admitted; otherwise the request is recorded
with deadline `now + max_latency`. -/
def InferenceClient.submit (c : InferenceClient) (fid now : Nat) :
    SubmitResult × InferenceClient :=
  if c.max_in_flight ≤ c.inflight.length then (SubmitResult.Overloaded, c)
  else
    match c.circuit with
    | CircuitState.Closed =>
        (SubmitResult.Accepted,
          { c with inflight := c.inflight ++ [⟨fid, now + c.max_latency⟩] })
    | CircuitState.Open u cd =>
        if now < u then (SubmitResult.ServiceUnavailable, c)
        else
          (SubmitResult.Accepted,
            { c with
                inflight := c.inflight ++ [⟨fid, now + c.max_latency⟩],
                circuit := CircuitState.HalfOpen fid cd })
    | CircuitState.HalfOpen _ _ => (SubmitResult.ServiceUnavailable, c)

/-- Modelled from the spec: bookkeeping for one consecutive failure
(network error or timeout) (§4.2): past the threshold the circuit
opens for the base cooldown; a failed half-open probe reopens it with
the cooldown doubled up to the cap. -/
def InferenceClient.recordFailure (c : InferenceClient) (now : Nat) :
    InferenceClient :=
  let f := c.consecutive_failures + 1
  match c.circuit with
  | CircuitState.HalfOpen _ cd =>
      let cd2 := min (2 * cd) c.cooldown_cap
      { c with consecutive_failures := f,
               circuit := CircuitState.Open (now + cd2) cd2 }
  | CircuitState.Open u cd =>
      { c with consecutive_failures := f,
               circuit := CircuitState.Open u cd }
  | CircuitState.Closed =>
      if c.threshold ≤ f then
        { c with consecutive_failures := f,
                 circuit := CircuitState.Open (now + c.cooldown_base)
                   c.cooldown_base }
      else { c with consecutive_failures := f }

/-- Modelled from the spec: the timeout sweep (§4.2): every in-flight
request whose deadline has passed resolves to `TimedOut`, is removed
from the in-flight set, and counts as one consecutive failure. -/
def InferenceClient.timeoutSweep (c : InferenceClient) (now : Nat) :
    InferenceClient :=
  let expired := c.inflight.filter (fun r => decide (r.deadline ≤ now))
  expired.foldl (fun acc _ => acc.recordFailure now)
    { c with inflight :=
        c.inflight.filter (fun r => decide (now < r.deadline)) }

/-- Modelled from the spec: response delivery (§4.2): responses are
matched to requests strictly by `frame_id`; a response whose
`frame_id` is not in the in-flight set is silently discarded; a
matched response resolves the request, resets the failure counter,
and, if it answers the half-open probe, closes the circuit. -/
def InferenceClient.deliverResponse (c : InferenceClient) (fid : Nat) :
    InferenceClient :=
  if c.inflight.any (fun r => decide (r.frame_id = fid)) then
    let c1 := { c with
      inflight := c.inflight.filter (fun r => decide (r.frame_id ≠ fid)),
      consecutive_failures := 0 }
    match c.circuit with
    | CircuitState.HalfOpen p _ =>
        if p = fid then { c1 with circuit := CircuitState.Closed } else c1
    | _ => c1
  else c

theorem InferenceClient.recordFailure_inflight (c : InferenceClient)
    (now : Nat) : (c.recordFailure now).inflight = c.inflight := by
  unfold InferenceClient.recordFailure
  cases c.circuit <;> first
    | rfl
    | (dsimp only; split <;> rfl)

theorem InferenceClient.foldl_recordFailure_inflight
    (l : List InferenceRequest) (c : InferenceClient) (now : Nat) :
    (l.foldl (fun acc _ => acc.recordFailure now) c).inflight =
      c.inflight := by
  induction l generalizing c with
  | nil => rfl
  | cons r rs ih =>
      simpa [List.foldl, InferenceClient.recordFailure_inflight]
        using ih (c.recordFailure now)

theorem InferenceClient.timeoutSweep_inflight (c : InferenceClient)
    (now : Nat) :
    (c.timeoutSweep now).inflight =
      c.inflight.filter (fun r => decide (now < r.deadline)) := by
  unfold InferenceClient.timeoutSweep
  exact InferenceClient.foldl_recordFailure_inflight _ _ now

theorem InferenceClient.deliverResponse_of_not_inflight
    (c : InferenceClient) (fid : Nat)
    (h : ∀ r ∈ c.inflight, r.frame_id ≠ fid) :
    c.deliverResponse fid = c := by
  unfold InferenceClient.deliverResponse
  rw [if_neg]
  intro hany
  rcases List.any_eq_true.mp hany with ⟨r, hr, hid⟩
  exact h r hr (of_decide_eq_true hid)

end Pipeline

/-- C4: whenever the number of unresolved in-flight requests equals
`max_in_flight`, `submit` fails immediately with `Overloaded` and the
client state is unchanged (no request is added). -/
theorem c4_submit_overloaded (c : Pipeline.InferenceClient) (fid now : Nat)
    (h : c.inflight.length = c.max_in_flight) :
    c.submit fid now = (Pipeline.SubmitResult.Overloaded, c) := by
  unfold Pipeline.InferenceClient.submit
  rw [if_pos (le_of_eq h.symm)]

/-- Witness for C4: with `max_in_flight = 2`, after two unresolved
submissions a third submission fails with `Overloaded` and leaves the
state unchanged. -/
theorem c4_submit_overloaded_witness :
    (((Pipeline.InferenceClient.mk 2 10 3 10 40 [] 0
          Pipeline.CircuitState.Closed).submit 1 0).2.submit 2
        0).2.submit 3 0 =
      (Pipeline.SubmitResult.Overloaded,
        (((Pipeline.InferenceClient.mk 2 10 3 10 40 [] 0
            Pipeline.CircuitState.Closed).submit 1 0).2.submit 2 0).2) :=
  c4_submit_overloaded
    ((((Pipeline.InferenceClient.mk 2 10 3 10 40 [] 0
        Pipeline.CircuitState.Closed).submit 1 0).2.submit 2 0).2)
    3 0 (by decide)

/-- C5: a response whose `frame_id` has already timed out by the sweep
at `now` (or was never submitted) is discarded: delivering it after the
sweep leaves the client state unchanged. -/
theorem c5_late_response_discarded (c : Pipeline.InferenceClient)
    (now fid : Nat)
    (h : ∀ r ∈ c.inflight, r.frame_id = fid → r.deadline ≤ now) :
    (c.timeoutSweep now).deliverResponse fid = c.timeoutSweep now := by
  apply Pipeline.InferenceClient.deliverResponse_of_not_inflight
  intro r hr hid
  rw [Pipeline.InferenceClient.timeoutSweep_inflight] at hr
  rcases List.mem_filter.mp hr with ⟨hmem, hlive⟩
  have hd := h r hmem hid
  have hlt : now < r.deadline := of_decide_eq_true hlive
  exact absurd hd (Nat.not_le.mpr hlt)

/-- Witness for C5: a request for frame 7 with deadline 50 has timed
out by `now = 100`; delivering a response for frame 7 after the sweep
changes nothing. -/
theorem c5_late_response_discarded_witness :
    ((Pipeline.InferenceClient.mk 2 10 3 10 40 [⟨7, 50⟩] 0
          Pipeline.CircuitState.Closed).timeoutSweep 100).deliverResponse
        7 =
      (Pipeline.InferenceClient.mk 2 10 3 10 40 [⟨7, 50⟩] 0
          Pipeline.CircuitState.Closed).timeoutSweep 100 :=
  c5_late_response_discarded
    (Pipeline.InferenceClient.mk 2 10 3 10 40 [⟨7, 50⟩] 0
      Pipeline.CircuitState.Closed) 100 7 (by decide)

/-- C7: the circuit breaker: (1) a consecutive failure reaching the
threshold opens the circuit for the base cooldown; (2) while open and
before the cooldown elapses, submission fails fast with
`ServiceUnavailable` and the state is untouched (no network request);
(3) once the cooldown elapses exactly one half-open probe is admitted;
(4) while the probe is outstanding further submissions fail fast;
(5) a successful probe response closes the circuit; (6) a failed probe
reopens it with the cooldown doubled up to the cap. -/
theorem c7_circuit_breaker (c : Pipeline.InferenceClient)
    (fid now u cd p : Nat) :
    (c.circuit = Pipeline.CircuitState.Closed →
        c.threshold ≤ c.consecutive_failures + 1 →
        (c.recordFailure now).circuit =
          Pipeline.CircuitState.Open (now + c.cooldown_base)
            c.cooldown_base) ∧
      (c.circuit = Pipeline.CircuitState.Open u cd → now < u →
        c.inflight.length < c.max_in_flight →
        c.submit fid now = (Pipeline.SubmitResult.ServiceUnavailable, c)) ∧
      (c.circuit = Pipeline.CircuitState.Open u cd → u ≤ now →
        c.inflight.length < c.max_in_flight →
        (c.submit fid now).1 = Pipeline.SubmitResult.Accepted ∧
          (c.submit fid now).2.circuit =
            Pipeline.CircuitState.HalfOpen fid cd) ∧
      (c.circuit = Pipeline.CircuitState.HalfOpen p cd →
        c.inflight.length < c.max_in_flight →
        c.submit fid now = (Pipeline.SubmitResult.ServiceUnavailable, c)) ∧
      (c.circuit = Pipeline.CircuitState.HalfOpen p cd →
        (∃ r ∈ c.inflight, r.frame_id = p) →
        (c.deliverResponse p).circuit = Pipeline.CircuitState.Closed) ∧
      (c.circuit = Pipeline.CircuitState.HalfOpen p cd →
        (c.recordFailure now).circuit =
          Pipeline.CircuitState.Open (now + min (2 * cd) c.cooldown_cap)
            (min (2 * cd) c.cooldown_cap)) := by
  refine ⟨?_, ?_, ?_, ?_, ?_, ?_⟩
  · intro hcirc hth
    simp [Pipeline.InferenceClient.recordFailure, hcirc, hth]
  · intro hcirc hnow hlen
    simp [Pipeline.InferenceClient.submit, hcirc, Nat.not_le.mpr hlen, hnow]
  · intro hcirc hle hlen
    simp [Pipeline.InferenceClient.submit, hcirc, Nat.not_le.mpr hlen,
      Nat.not_lt.mpr hle]
  · intro hcirc hlen
    simp [Pipeline.InferenceClient.submit, hcirc, Nat.not_le.mpr hlen]
  · intro hcirc hex
    rcases hex with ⟨r, hr, hid⟩
    have hany : c.inflight.any (fun r => decide (r.frame_id = p)) = true :=
      List.any_eq_true.mpr ⟨r, hr, decide_eq_true hid⟩
    simp [Pipeline.InferenceClient.deliverResponse, hany, hcirc]
  · intro hcirc
    simp [Pipeline.InferenceClient.recordFailure, hcirc]

/-- Witness for C7: with threshold 3, base cooldown 10 and cap 40 —
a third consecutive failure at time 0 opens the circuit until 10; a
submission at time 20 against a circuit open until 50 fails fast
unchanged; at time 60 one probe is admitted into half-open; a further
submission while the probe is out fails fast; answering the probe
closes the circuit; a probe failure at time 80 reopens it with the
cooldown doubled to 20. -/
theorem c7_circuit_breaker_witness :
    ((Pipeline.InferenceClient.mk 2 10 3 10 40 [] 2
          Pipeline.CircuitState.Closed).recordFailure 0).circuit =
        Pipeline.CircuitState.Open 10 10 ∧
      (Pipeline.InferenceClient.mk 2 10 3 10 40 [] 3
          (Pipeline.CircuitState.Open 50 10)).submit 9 20 =
        (Pipeline.SubmitResult.ServiceUnavailable,
          Pipeline.InferenceClient.mk 2 10 3 10 40 [] 3
            (Pipeline.CircuitState.Open 50 10)) ∧
      (((Pipeline.InferenceClient.mk 2 10 3 10 40 [] 3
            (Pipeline.CircuitState.Open 50 10)).submit 9 60).1 =
          Pipeline.SubmitResult.Accepted ∧
        ((Pipeline.InferenceClient.mk 2 10 3 10 40 [] 3
            (Pipeline.CircuitState.Open 50 10)).submit 9 60).2.circuit =
          Pipeline.CircuitState.HalfOpen 9 10) ∧
      (Pipeline.InferenceClient.mk 2 10 3 10 40 [⟨9, 70⟩] 3
          (Pipeline.CircuitState.HalfOpen 9 10)).submit 11 61 =
        (Pipeline.SubmitResult.ServiceUnavailable,
          Pipeline.InferenceClient.mk 2 10 3 10 40 [⟨9, 70⟩] 3
            (Pipeline.CircuitState.HalfOpen 9 10)) ∧
      ((Pipeline.InferenceClient.mk 2 10 3 10 40 [⟨9, 70⟩] 3
          (Pipeline.CircuitState.HalfOpen 9 10)).deliverResponse
            9).circuit = Pipeline.CircuitState.Closed ∧
      ((Pipeline.InferenceClient.mk 2 10 3 10 40 [⟨9, 70⟩] 3
          (Pipeline.CircuitState.HalfOpen 9 10)).recordFailure
            80).circuit = Pipeline.CircuitState.Open 100 20 :=
  ⟨(c7_circuit_breaker
      (Pipeline.InferenceClient.mk 2 10 3 10 40 [] 2
        Pipeline.CircuitState.Closed) 0 0 0 0 0).1 rfl (by decide),
    (c7_circuit_breaker
      (Pipeline.InferenceClient.mk 2 10 3 10 40 [] 3
        (Pipeline.CircuitState.Open 50 10)) 9 20 50 10 0).2.1 rfl
      (by decide) (by decide),
    (c7_circuit_breaker
      (Pipeline.InferenceClient.mk 2 10 3 10 40 [] 3
        (Pipeline.CircuitState.Open 50 10)) 9 60 50 10 0).2.2.1 rfl
      (by decide) (by decide),
    (c7_circuit_breaker
      (Pipeline.InferenceClient.mk 2 10 3 10 40 [⟨9, 70⟩] 3
        (Pipeline.CircuitState.HalfOpen 9 10)) 11 61 0 10 9).2.2.2.1 rfl
      (by decide),
    (c7_circuit_breaker
      (Pipeline.InferenceClient.mk 2 10 3 10 40 [⟨9, 70⟩] 3
        (Pipeline.CircuitState.HalfOpen 9 10)) 0 0 0 10 9).2.2.2.2.1 rfl
      ⟨⟨9, 70⟩, by decide, rfl⟩,
    (c7_circuit_breaker
      (Pipeline.InferenceClient.mk 2 10 3 10 40 [⟨9, 70⟩] 3
        (Pipeline.CircuitState.HalfOpen 9 10)) 0 80 0 10 9).2.2.2.2.2
      rfl⟩

namespace Pipeline

/-- Modelled from the spec: the two nozzle actions of §3. -/
inductive Action
  | OPEN
  | CLOSE
deriving DecidableEq

/-- Modelled from the spec: the `ActuatorCommand` record of §3:
`{sequence_number, nozzle_id, action, checksum}` (the checksum is a
wire-format detail, omitted). -/
structure ActuatorCommand where
  sequence_number : Nat
  nozzle_id : Nat
  action : Action
deriving DecidableEq

/-- Modelled from the spec: per-nozzle channel state (§4.4, §5 — the
command queue per nozzle is depth-1): the unacknowledged in-flight
command with its attempt count, the nozzle's commanded state, and the
number of hard faults reported upstream for this nozzle. -/
structure NozzleSlot where
  pending : Option (ActuatorCommand × Nat)
  state : Action
  faults : Nat
deriving DecidableEq

/-- Modelled from the spec: the `ActuatorChannel` of §4.4 (sources
unavailable): a retry budget and one slot per nozzle. -/
structure ActuatorChannel where
  retry_count : Nat
  slots : Nat → NozzleSlot

/-- Modelled from the spec: `enqueue(command)` (§4.4): the new command
takes the nozzle's slot, superseding any earlier unacknowledged
command (whose retries are thereby cancelled); attempt 1 is sent. -/
def ActuatorChannel.enqueue (ch : ActuatorChannel)
    (cmd : ActuatorCommand) : ActuatorChannel :=
  { ch with slots := fun m =>
      if m = cmd.nozzle_id then
        { ch.slots m with pending := some (cmd, 1) }
      else ch.slots m }

/-- Modelled from the spec: a missing or corrupt acknowledgement for
nozzle `n` (§4.4): while attempts remain, the same command is resent
(same sequence number); on exhaustion the nozzle is forced to the
fail-safe CLOSE state and one hard fault is reported upstream. -/
def ActuatorChannel.ackFailure (ch : ActuatorChannel) (n : Nat) :
    ActuatorChannel :=
  match (ch.slots n).pending with
  | none => ch
  | some (cmd, k) =>
      if k < ch.retry_count then
        { ch with slots := fun m =>
            if m = n then { ch.slots m with pending := some (cmd, k + 1) }
            else ch.slots m }
      else
        { ch with slots := fun m =>
            if m = n then
              { pending := none, state := Action.CLOSE,
                faults := (ch.slots m).faults + 1 }
            else ch.slots m }

/-- Modelled from the spec: a valid acknowledgement echoing the
in-flight sequence number for nozzle `n` resolves the command and the
nozzle assumes its action; an unknown sequence number is ignored
(§4.4, §6). -/
def ActuatorChannel.ackReceived (ch : ActuatorChannel) (n seq : Nat) :
    ActuatorChannel :=
  match (ch.slots n).pending with
  | none => ch
  | some (cmd, _) =>
      if cmd.sequence_number = seq then
        { ch with slots := fun m =>
            if m = n then
              { pending := none, state := cmd.action,
                faults := (ch.slots m).faults }
            else ch.slots m }
      else ch

/-- `k` consecutive acknowledgement failures for nozzle `n`. -/
def ActuatorChannel.failN (ch : ActuatorChannel) (n : Nat) :
    Nat → ActuatorChannel
  | 0 => ch
  | k + 1 => (ch.failN n k).ackFailure n

/-- A whole sequence of enqueues. -/
def ActuatorChannel.enqueueAll (ch : ActuatorChannel)
    (cmds : List ActuatorCommand) : ActuatorChannel :=
  cmds.foldl ActuatorChannel.enqueue ch

theorem ActuatorChannel.enqueue_retry_count (ch : ActuatorChannel)
    (cmd : ActuatorCommand) :
    (ch.enqueue cmd).retry_count = ch.retry_count := rfl

theorem ActuatorChannel.ackFailure_retry_count (ch : ActuatorChannel)
    (n : Nat) : (ch.ackFailure n).retry_count = ch.retry_count := by
  unfold ActuatorChannel.ackFailure
  split
  · rfl
  · split <;> rfl

theorem ActuatorChannel.failN_retry_count (ch : ActuatorChannel)
    (n k : Nat) : (ch.failN n k).retry_count = ch.retry_count := by
  induction k with
  | zero => rfl
  | succ k ih =>
      rw [ActuatorChannel.failN, ActuatorChannel.ackFailure_retry_count]
      exact ih

theorem ActuatorChannel.enqueue_slot_eq (ch : ActuatorChannel)
    (cmd : ActuatorCommand) :
    (ch.enqueue cmd).slots cmd.nozzle_id =
      { ch.slots cmd.nozzle_id with pending := some (cmd, 1) } := by
  unfold ActuatorChannel.enqueue
  simp

theorem ActuatorChannel.ackFailure_slot_none (ch : ActuatorChannel)
    (n : Nat) (h : (ch.slots n).pending = none) :
    ch.ackFailure n = ch := by
  unfold ActuatorChannel.ackFailure
  rw [h]

theorem ActuatorChannel.ackFailure_slot_retry (ch : ActuatorChannel)
    (n : Nat) (cmd : ActuatorCommand) (k : Nat)
    (h : (ch.slots n).pending = some (cmd, k))
    (hk : k < ch.retry_count) :
    (ch.ackFailure n).slots n =
      { ch.slots n with pending := some (cmd, k + 1) } := by
  unfold ActuatorChannel.ackFailure
  rw [h]
  dsimp only
  rw [if_pos hk]
  simp

theorem ActuatorChannel.ackFailure_slot_exhaust (ch : ActuatorChannel)
    (n : Nat) (cmd : ActuatorCommand) (k : Nat)
    (h : (ch.slots n).pending = some (cmd, k))
    (hk : ¬ k < ch.retry_count) :
    (ch.ackFailure n).slots n =
      { pending := none, state := Action.CLOSE,
        faults := (ch.slots n).faults + 1 } := by
  unfold ActuatorChannel.ackFailure
  rw [h]
  dsimp only
  rw [if_neg hk]
  simp

end Pipeline

namespace Pipeline

theorem ActuatorChannel.failN_slot_during (ch : ActuatorChannel)
    (cmd : ActuatorCommand) (j : Nat) (hj : j < ch.retry_count) :
    ((ch.enqueue cmd).failN cmd.nozzle_id j).slots cmd.nozzle_id =
      { ch.slots cmd.nozzle_id with pending := some (cmd, j + 1) } := by
  induction j with
  | zero => simpa using ActuatorChannel.enqueue_slot_eq ch cmd
  | succ j ih =>
      have hjlt : j < ch.retry_count := Nat.lt_of_succ_lt hj
      have hslot := ih hjlt
      rw [ActuatorChannel.failN]
      have hretry :
          ((ch.enqueue cmd).failN cmd.nozzle_id j).retry_count =
            ch.retry_count := by
        rw [ActuatorChannel.failN_retry_count,
          ActuatorChannel.enqueue_retry_count]
      have hpend :
          (((ch.enqueue cmd).failN cmd.nozzle_id j).slots
            cmd.nozzle_id).pending = some (cmd, j + 1) := by
        rw [hslot]
      rw [ActuatorChannel.ackFailure_slot_retry _ _ cmd (j + 1) hpend
        (by rw [hretry]; exact hj)]
      rw [hslot]

theorem ActuatorChannel.failN_slot_exhausted (ch : ActuatorChannel)
    (cmd : ActuatorCommand) (m : Nat) (h1 : 1 ≤ ch.retry_count)
    (hm : ch.retry_count ≤ m) :
    ((ch.enqueue cmd).failN cmd.nozzle_id m).slots cmd.nozzle_id =
      { pending := none, state := Action.CLOSE,
        faults := (ch.slots cmd.nozzle_id).faults + 1 } := by
  induction m, hm using Nat.le_induction with
  | base =>
      obtain ⟨r, hr⟩ : ∃ r, ch.retry_count = r + 1 :=
        ⟨ch.retry_count - 1, (Nat.succ_pred_eq_of_pos h1).symm⟩
      have hrlt : r < ch.retry_count := by omega
      have hslot := ActuatorChannel.failN_slot_during ch cmd r hrlt
      rw [hr, ActuatorChannel.failN]
      have hretry :
          ((ch.enqueue cmd).failN cmd.nozzle_id r).retry_count =
            ch.retry_count := by
        rw [ActuatorChannel.failN_retry_count,
          ActuatorChannel.enqueue_retry_count]
      have hpend :
          (((ch.enqueue cmd).failN cmd.nozzle_id r).slots
            cmd.nozzle_id).pending = some (cmd, r + 1) := by
        rw [hslot]
      rw [ActuatorChannel.ackFailure_slot_exhaust _ _ cmd (r + 1) hpend
        (by rw [hretry]; omega)]
      rw [hslot]
  | succ m hm ih =>
      rw [ActuatorChannel.failN]
      have hnone :
          (((ch.enqueue cmd).failN cmd.nozzle_id m).slots
            cmd.nozzle_id).pending = none := by
        rw [ih]
      rw [ActuatorChannel.ackFailure_slot_none _ _ hnone]
      exact ih

end Pipeline

/-- C1: after a command is enqueued for a nozzle, while fewer than
`retry_count` acknowledgement failures have occurred the same command
stays in flight with no fault reported; once acknowledgements have
been missing or corrupt for `retry_count` consecutive attempts (and
for any number of further failure events) the nozzle is forced to the
fail-safe CLOSE state with no command in flight, and exactly one hard
fault has been reported upstream for that nozzle. -/
theorem c1_retry_exhaustion_failsafe (ch : Pipeline.ActuatorChannel)
    (cmd : Pipeline.ActuatorCommand) (h1 : 1 ≤ ch.retry_count) :
    (∀ j, j < ch.retry_count →
        ((ch.enqueue cmd).failN cmd.nozzle_id j).slots cmd.nozzle_id =
          { pending := some (cmd, j + 1),
            state := (ch.slots cmd.nozzle_id).state,
            faults := (ch.slots cmd.nozzle_id).faults }) ∧
      ∀ m, ch.retry_count ≤ m →
        ((ch.enqueue cmd).failN cmd.nozzle_id m).slots cmd.nozzle_id =
          { pending := none, state := Pipeline.Action.CLOSE,
            faults := (ch.slots cmd.nozzle_id).faults + 1 } := by
  constructor
  · intro j hj
    exact Pipeline.ActuatorChannel.failN_slot_during ch cmd j hj
  · intro m hm
    exact Pipeline.ActuatorChannel.failN_slot_exhausted ch cmd m h1 hm

/-- Witness for C1: retry budget 3, command for nozzle 2: after 1
failure the command is still in flight on attempt 2 with no fault;
after 4 failure events the nozzle is forced CLOSE with exactly one
fault reported. -/
theorem c1_retry_exhaustion_failsafe_witness :
    (((Pipeline.ActuatorChannel.mk 3
          (fun _ => ⟨none, Pipeline.Action.CLOSE, 0⟩)).enqueue
          ⟨5, 2, Pipeline.Action.OPEN⟩).failN 2 1).slots 2 =
        { pending := some (⟨5, 2, Pipeline.Action.OPEN⟩, 2),
          state := Pipeline.Action.CLOSE, faults := 0 } ∧
      (((Pipeline.ActuatorChannel.mk 3
          (fun _ => ⟨none, Pipeline.Action.CLOSE, 0⟩)).enqueue
          ⟨5, 2, Pipeline.Action.OPEN⟩).failN 2 4).slots 2 =
        { pending := none, state := Pipeline.Action.CLOSE,
          faults := 1 } :=
  ⟨(c1_retry_exhaustion_failsafe
      (Pipeline.ActuatorChannel.mk 3
        (fun _ => ⟨none, Pipeline.Action.CLOSE, 0⟩))
      ⟨5, 2, Pipeline.Action.OPEN⟩ (by decide)).1 1 (by decide),
    (c1_retry_exhaustion_failsafe
      (Pipeline.ActuatorChannel.mk 3
        (fun _ => ⟨none, Pipeline.Action.CLOSE, 0⟩))
      ⟨5, 2, Pipeline.Action.OPEN⟩ (by decide)).2 4 (by decide)⟩

namespace Pipeline

theorem ActuatorChannel.enqueueAll_slot (ch : ActuatorChannel)
    (cmds : List ActuatorCommand) (n : Nat) (hne : cmds ≠ [])
    (hall : ∀ cmd ∈ cmds, cmd.nozzle_id = n) :
    ((ch.enqueueAll cmds).slots n).pending =
      some (cmds.getLast hne, 1) := by
  induction cmds generalizing ch with
  | nil => exact absurd rfl hne
  | cons c cs ih =>
      have hcn : c.nozzle_id = n := hall c (List.mem_cons_self c cs)
      cases cs with
      | nil =>
          show ((ch.enqueue c).slots n).pending = some (c, 1)
          rw [← hcn, ActuatorChannel.enqueue_slot_eq]
      | cons c2 cs2 =>
          have hne2 : c2 :: cs2 ≠ [] := List.cons_ne_nil c2 cs2
          have hall2 : ∀ cmd ∈ c2 :: cs2, cmd.nozzle_id = n :=
            fun cmd hm => hall cmd (List.mem_cons_of_mem c hm)
          have hstep :
              ch.enqueueAll (c :: c2 :: cs2) =
                (ch.enqueue c).enqueueAll (c2 :: cs2) := rfl
          rw [hstep, ih (ch.enqueue c) hne2 hall2,
            List.getLast_cons hne2]

theorem ActuatorChannel.ackFailure_only_cmd (ch : ActuatorChannel)
    (n : Nat) (c0 : ActuatorCommand)
    (h : ((ch.slots n).pending = none) ∨
      ∃ a, (ch.slots n).pending = some (c0, a)) :
    (((ch.ackFailure n).slots n).pending = none) ∨
      ∃ a, ((ch.ackFailure n).slots n).pending = some (c0, a) := by
  rcases h with h | ⟨a, h⟩
  · rw [ActuatorChannel.ackFailure_slot_none ch n h]
    exact Or.inl h
  · by_cases hk : a < ch.retry_count
    · refine Or.inr ⟨a + 1, ?_⟩
      rw [ActuatorChannel.ackFailure_slot_retry ch n c0 a h hk]
    · refine Or.inl ?_
      rw [ActuatorChannel.ackFailure_slot_exhaust ch n c0 a h hk]

end Pipeline

/-- C6: after any sequence of enqueues for the same nozzle with no
acknowledgements, only the last command occupies the nozzle's
depth-one slot (each enqueue supersedes the earlier unacknowledged
command, cancelling its retries, and resets the attempt count), and
under any number of subsequent acknowledgement failures the only
command ever in flight — hence ever retried — is that last command. -/
theorem c6_supersede_last_only (ch : Pipeline.ActuatorChannel)
    (cmds : List Pipeline.ActuatorCommand) (n : Nat) (hne : cmds ≠ [])
    (hall : ∀ cmd ∈ cmds, cmd.nozzle_id = n) :
    ((ch.enqueueAll cmds).slots n).pending =
        some (cmds.getLast hne, 1) ∧
      ∀ k cmd a,
        (((ch.enqueueAll cmds).failN n k).slots n).pending =
          some (cmd, a) → cmd = cmds.getLast hne := by
  have h0 := Pipeline.ActuatorChannel.enqueueAll_slot ch cmds n hne hall
  refine ⟨h0, ?_⟩
  have hinv : ∀ k,
      ((((ch.enqueueAll cmds).failN n k).slots n).pending = none) ∨
        ∃ a, (((ch.enqueueAll cmds).failN n k).slots n).pending =
          some (cmds.getLast hne, a) := by
    intro k
    induction k with
    | zero => exact Or.inr ⟨1, h0⟩
    | succ k ih =>
        rw [Pipeline.ActuatorChannel.failN]
        exact Pipeline.ActuatorChannel.ackFailure_only_cmd _ n _ ih
  intro k cmd a hpend
  rcases hinv k with hnone | ⟨a2, hsome⟩
  · rw [hpend] at hnone
    exact Option.noConfusion hnone
  · rw [hpend] at hsome
    have := Option.some.inj hsome
    exact congrArg Prod.fst this

/-- Witness for C6: three commands enqueued for nozzle 2 with no
acknowledgements: the slot holds the third command on attempt 1, and
under failures only the third command is ever in flight. -/
theorem c6_supersede_last_only_witness :
    (((Pipeline.ActuatorChannel.mk 3
          (fun _ => ⟨none, Pipeline.Action.CLOSE, 0⟩)).enqueueAll
          [⟨1, 2, Pipeline.Action.OPEN⟩, ⟨2, 2, Pipeline.Action.CLOSE⟩,
            ⟨3, 2, Pipeline.Action.OPEN⟩]).slots 2).pending =
        some (⟨3, 2, Pipeline.Action.OPEN⟩, 1) ∧
      ∀ k cmd a,
        ((((Pipeline.ActuatorChannel.mk 3
            (fun _ => ⟨none, Pipeline.Action.CLOSE, 0⟩)).enqueueAll
            [⟨1, 2, Pipeline.Action.OPEN⟩, ⟨2, 2, Pipeline.Action.CLOSE⟩,
              ⟨3, 2, Pipeline.Action.OPEN⟩]).failN 2 k).slots 2).pending =
          some (cmd, a) → cmd = ⟨3, 2, Pipeline.Action.OPEN⟩ :=
  c6_supersede_last_only
    (Pipeline.ActuatorChannel.mk 3
      (fun _ => ⟨none, Pipeline.Action.CLOSE, 0⟩))
    [⟨1, 2, Pipeline.Action.OPEN⟩, ⟨2, 2, Pipeline.Action.CLOSE⟩,
      ⟨3, 2, Pipeline.Action.OPEN⟩] 2 (by decide) (by decide)
